import Mathlib

/-
Verification of the session-transcript analyzer in
`.cursor/scripts/summarize_session.py`.

We embed the program shallowly: the transcript is a `List Char`, Python's
`str.split('\n')` / substring test / `str.lower()` become executable Lean
functions, and each regular expression used by the script is embedded as a
deterministic matcher (every pattern in the script is an alternation of
string literals followed by greedy character-class repetitions whose classes
are disjoint from the forced follow-up characters, so the Python backtracking
engine behaves deterministically on them and a direct functional matcher is
faithful).
-/

namespace Dwell

/-- Characters of a Lean string literal, used to write transcripts. -/
def str (s : String) : List Char := s.toList

/-- Test that `n` is a leading segment of `h` (used to build Python's
substring test `n in h`). -/
def leadSeg : List Char → List Char → Bool
  | [], _ => true
  | _ :: _, [] => false
  | a :: as, b :: bs => a == b && leadSeg as bs

/-- Python's substring containment `n in h`. -/
def containsSub (n : List Char) : List Char → Bool
  | [] => leadSeg n []
  | c :: rest => leadSeg n (c :: rest) || containsSub n rest

/-- Python's `context.split('\n')`: split at every newline, keeping empty
pieces (so the result is always nonempty). -/
def splitNl : List Char → List (List Char)
  | [] => [[]]
  | c :: rest =>
    if c = '\n' then [] :: splitNl rest
    else
      match splitNl rest with
      | [] => [[c]]
      | l :: ls => (c :: l) :: ls

/-- Python's `'\n'.join(pieces)`. -/
def joinNl (pieces : List (List Char)) : List Char :=
  List.intercalate ['\n'] pieces

/-- First `some` produced by `f` along the list; models a loop whose body
either `return`s a value or falls through to the next iteration. -/
def firstSome (f : α → Option β) : List α → Option β
  | [] => none
  | a :: as =>
    match f a with
    | some b => some b
    | none => firstSome f as

/-- Python's `range(a, b, -1)`: the indices from `a` down to `b + 1`. -/
def downRange (a b : Nat) : List Nat :=
  (List.range' (b + 1) (a - b)).reverse

/-- Python's `str.lower()` on a line. -/
def lowerStr (l : List Char) : List Char := l.map Char.toLower

/-- Number of lines of the transcript (`len(lines)`). -/
def numLines (context : List Char) : Nat := (splitNl context).length

/-- `lines[i]` (out-of-range reads never happen at the call sites; we default
to the empty line). -/
def lineAt (context : List Char) (i : Nat) : List Char :=
  (splitNl context).getD i []

/-- The comprehension `[i for i, line in enumerate(lines) if error in line]`
from `find_solution_for_error`. -/
def errorIndices (context error : List Char) : List Nat :=
  (List.range (splitNl context).length).filter
    (fun i => containsSub error (lineAt context i))

/-- The resolution-phrase test of `find_solution_for_error`:
`any(phrase in line for phrase in ['that worked', 'fixed', 'solved', 'resolved'])`
applied to the lowercased line. -/
def hasResPhrase (line : List Char) : Bool :=
  [str "that worked", str "fixed", str "solved", str "resolved"].any
    (fun p => containsSub p (lowerStr line))

/-- The action-marker test of `find_solution_for_error`:
`'edit_file' in lines[j] or 'run_terminal_cmd' in lines[j]`. -/
def hasAction (line : List Char) : Bool :=
  containsSub (str "edit_file") line || containsSub (str "run_terminal_cmd") line

/-- `'\n'.join(lines[j:i+1])`. -/
def joinSlice (context : List Char) (j i : Nat) : List Char :=
  joinNl (((splitNl context).take (i + 1)).drop j)

/-- `find_solution_for_error(context, error, window=5)` from
summarize_session.py: for each line index containing the error text, scan
forward over `range(error_idx + 1, min(len(lines), error_idx + window))`
for a resolution phrase, then backward over `range(i - 1, error_idx, -1)`
for an action line, returning `'\n'.join(lines[j:i+1])` on the first hit. -/
def find_solution_for_error (context error : List Char) (window : Nat := 5) :
    Option (List Char) :=
  firstSome
    (fun error_idx =>
      firstSome
        (fun i =>
          if hasResPhrase (lineAt context i) then
            firstSome
              (fun j =>
                if hasAction (lineAt context j) then some (joinSlice context j i)
                else none)
              (downRange (i - 1) error_idx)
          else none)
        (List.range' (error_idx + 1)
          (min (numLines context) (error_idx + window) - (error_idx + 1))))
    (errorIndices context error)

/-- `extract_error_context(context, error_match, window=3)` from
summarize_session.py: the lines around the first line containing the match,
or the match text itself when no line contains it. -/
def extract_error_context (context error_match : List Char) (window : Nat := 3) :
    List Char :=
  match (List.range (splitNl context).length).find?
      (fun i => containsSub error_match (lineAt context i)) with
  | some i =>
      joinNl (((splitNl context).take (min (numLines context) (i + window + 1))).drop
        (i - window))
  | none => error_match

/-! Embedding of the regular expressions used by `summarize_session`. -/

/-- The class `[^\n.]` appearing in every pattern of the script. -/
def isSentChar (c : Char) : Bool := c ≠ '\n' && c ≠ '.'

/-- Case-insensitive literal match at the head of `s` (the behaviour of a
literal alternative under `re.I`): returns the consumed original characters
and the rest. -/
def matchLitCI : List Char → List Char → Option (List Char × List Char)
  | [], s => some ([], s)
  | _ :: _, [] => none
  | l :: ls, c :: cs =>
    if Char.toLower c == Char.toLower l then
      (matchLitCI ls cs).map (fun p => (c :: p.1, p.2))
    else none

/-- Case-sensitive literal match at the head of `s`. -/
def matchLitCS : List Char → List Char → Option (List Char × List Char)
  | [], s => some ([], s)
  | _ :: _, [] => none
  | l :: ls, c :: cs =>
    if c == l then
      (matchLitCS ls cs).map (fun p => (c :: p.1, p.2))
    else none

/-- A literal alternation such as `(?:error|exception|failed|failure)` under
`re.I`; the alternatives of every alternation in the script are pairwise
non-overlapping at any position, so first-match semantics are faithful. -/
def matchTriggerCI (trigs : List (List Char)) (s : List Char) :
    Option (List Char × List Char) :=
  firstSome (fun t => matchLitCI t s) trigs

/-- Case-sensitive literal alternation (the profanity alternatives). -/
def matchTriggerCS (trigs : List (List Char)) (s : List Char) :
    Option (List Char × List Char) :=
  firstSome (fun t => matchLitCS t s) trigs

/-- The error vocabulary of `re.findall(r"(?:error|exception|failed|failure)...")`. -/
def errTriggers : List (List Char) :=
  [str "error", str "exception", str "failed", str "failure"]

/-- Match of the error pattern `(?:error|exception|failed|failure)[^\n.]*[\n.][^\n.]*`
at the head of `s` (under `re.I`); returns the matched text. The greedy
`[^\n.]*` stops exactly at a `[\n.]` character or at the end of input, so no
backtracking can occur. -/
def matchErrAt (s : List Char) : Option (List Char) :=
  match matchTriggerCI errTriggers s with
  | none => none
  | some (m1, r1) =>
    let seg := r1.takeWhile isSentChar
    match r1.dropWhile isSentChar with
    | [] => none
    | c :: r3 => some (m1 ++ seg ++ c :: r3.takeWhile isSentChar)

/-- The class `[A-Z !]` of the frustration pattern. -/
def upperClass (c : Char) : Bool := ('A' ≤ c && c ≤ 'Z') || c == ' ' || c == '!'

/-- The profanity vocabulary of the frustration pattern. -/
def profanities : List (List Char) :=
  [str "damn", str "shit", str "fuck", str "crap"]

/-- Match of the frustration pattern `([A-Z !]{4,}|(?:damn|shit|fuck|crap))[^\n.]*`
at the head of `s` (case-sensitive). Returns the text of capture group 1 —
which is what `re.findall` collects for a one-group pattern — together with
the total number of characters consumed by the whole match (group plus the
uncaptured trailing `[^\n.]*`). -/
def matchFrustAt (s : List Char) : Option (List Char × Nat) :=
  if 4 ≤ (s.takeWhile upperClass).length then
    some (s.takeWhile upperClass,
      (s.takeWhile upperClass).length +
        ((s.drop (s.takeWhile upperClass).length).takeWhile isSentChar).length)
  else
    match matchTriggerCS profanities s with
    | some (m, r) => some (m, m.length + (r.takeWhile isSentChar).length)
    | none => none

/-- The tail `[^\n.]*(?:[\n.][^\n.]*){0,2}` shared by the three
solution-pattern tiers: a sentence segment and greedily up to two further
boundary-plus-segment steps. Returns the consumed characters. -/
def matchTail02 (r : List Char) : List Char :=
  let seg0 := r.takeWhile isSentChar
  match r.dropWhile isSentChar with
  | [] => seg0
  | c1 :: r1 =>
    let seg1 := r1.takeWhile isSentChar
    match r1.dropWhile isSentChar with
    | [] => seg0 ++ c1 :: seg1
    | c2 :: r2 => seg0 ++ c1 :: seg1 ++ c2 :: r2.takeWhile isSentChar

/-- Match of a solution-tier pattern
`(?:trig1|trig2|trig3)[^\n.]*(?:[\n.][^\n.]*){0,2}` at the head of `s`
under `re.I`. -/
def matchPhraseAt (trigs : List (List Char)) (s : List Char) :
    Option (List Char) :=
  match matchTriggerCI trigs s with
  | none => none
  | some (m, r) => some (m ++ matchTail02 r)

/-- `re.findall` scanning: try the matcher at each position from the left;
on a match, record the captured text and resume after the consumed span.
The matcher returns (captured text, total characters consumed). Fuel is at
least `length + 1`, which the scan can never exhaust since every step
consumes input. -/
def reScan (matcher : List Char → Option (List Char × Nat)) :
    Nat → List Char → List (List Char)
  | 0, _ => []
  | _ + 1, [] => []
  | fuel + 1, s@(_ :: rest) =>
    match matcher s with
    | some (g, n) =>
      if n = 0 then g :: reScan matcher fuel rest
      else g :: reScan matcher fuel (s.drop n)
    | none => reScan matcher fuel rest

/-- `re.findall(r"(?:error|exception|failed|failure)[^\n.]*[\n.][^\n.]*", context, re.I)`. -/
def findallErr (context : List Char) : List (List Char) :=
  reScan (fun u => (matchErrAt u).map (fun m => (m, m.length)))
    (context.length + 1) context

/-- `re.findall(r"([A-Z !]{4,}|(?:damn|shit|fuck|crap))[^\n.]*", context)`. -/
def findallFrust (context : List Char) : List (List Char) :=
  reScan matchFrustAt (context.length + 1) context

/-- The SOLVED-tier trigger vocabulary. -/
def solvedTrigs : List (List Char) := [str "that worked", str "fixed", str "solved"]

/-- The TENTATIVE-tier trigger vocabulary. -/
def tentTrigs : List (List Char) :=
  [str "let\x27s try", str "try something", str "different approach"]

/-- The UNCERTAIN-tier trigger vocabulary. -/
def uncertTrigs : List (List Char) := [str "this might", str "maybe", str "could try"]

/-- `re.findall` of one solution-tier pattern over the transcript. -/
def findallPhrase (trigs : List (List Char)) (context : List Char) :
    List (List Char) :=
  reScan (fun u => (matchPhraseAt trigs u).map (fun m => (m, m.length)))
    (context.length + 1) context

/-- Matches of the SOLVED tier (`solutions` in the script). -/
def findallSolved (context : List Char) : List (List Char) :=
  findallPhrase solvedTrigs context

/-- Matches of the TENTATIVE tier (collected into `ambiguous` with prefix `??`). -/
def findallTent (context : List Char) : List (List Char) :=
  findallPhrase tentTrigs context

/-- Matches of the UNCERTAIN tier (collected into `ambiguous` with prefix `?`). -/
def findallUncert (context : List Char) : List (List Char) :=
  findallPhrase uncertTrigs context

/-! Aggregation (`Counter(errors).most_common()`) and the report model. -/

/-- Occurrence count of `x` in `xs` (a `Counter` entry). -/
def countOcc (xs : List (List Char)) (x : List Char) : Nat :=
  xs.countP (fun y => y == x)

/-- Fuel-driven helper for `dedupFirst`; the fuel only needs to dominate the
list length, which filtering cannot increase. -/
def dedupFirstAux : Nat → List (List Char) → List (List Char)
  | 0, _ => []
  | _ + 1, [] => []
  | fuel + 1, x :: xs => x :: dedupFirstAux fuel (xs.filter (fun y => ¬ y == x))

/-- The distinct elements of `xs` in first-occurrence order — the key order
of a Python `Counter` built by insertion. -/
def dedupFirst (xs : List (List Char)) : List (List Char) :=
  dedupFirstAux xs.length xs

/-- Stable descending insertion by count: an element goes before the first
strictly smaller count, so ties keep their existing order — the semantics of
Python's stable `sorted(..., key=count, reverse=True)` used by
`Counter.most_common()`. -/
def insertDesc (x : List Char × Nat) :
    List (List Char × Nat) → List (List Char × Nat)
  | [] => [x]
  | y :: ys => if y.2 < x.2 then x :: y :: ys else y :: insertDesc x ys

/-- Stable descending sort by count. -/
def sortDesc : List (List Char × Nat) → List (List Char × Nat)
  | [] => []
  | x :: xs => insertDesc x (sortDesc xs)

/-- `Counter(errors).most_common()`: (text, count) pairs, counts descending,
ties in first-occurrence order. -/
def mostCommon (xs : List (List Char)) : List (List Char × Nat) :=
  sortDesc ((dedupFirst xs).map (fun x => (x, countOcc xs x)))

/-- Decimal rendering of a count, for the `(occurred {n} times)` text. -/
def natStr (n : Nat) : List Char := (Nat.repr n).toList

/-- Outcome of one run of `summarize_session`.  `console` is the list of
`print` arguments; `bugfixAppended` is the list of chunks that reached
`f.write` on the append-log file before the run ended; `snapshot` is the
list of chunks written to the overwritten snapshot file, or `none` when the
run died before opening it; `crashed` records an uncaught exception. -/
structure RunResult where
  console : List (List Char)
  bugfixAppended : List (List Char)
  snapshot : Option (List (List Char))
  crashed : Bool

/-- The frustration-points loop of `summarize_session`.  In the source the
section is written by `for f in set(frustration): f.write("- " + f[0] + "\n")`
inside `with open(BUGFIXES_FILE, "a") as f`: the loop variable rebinds `f`
from the open file handle to a marker string, so the first iteration calls
`.write` on a `str` and raises `AttributeError`.  We model the loop by the
chunks it manages to write (none) and a flag telling whether it raised,
which happens exactly when the marker set is nonempty. -/
def frustSectionWrite (markers : List (List Char)) : List (List Char) × Bool :=
  if markers.isEmpty then ([], false) else ([], true)

/-- One best-effort external snapshot block of `last_session_summary.md`:
the subprocess stdout wrapped in a header and a code fence.  `none` models
the `subprocess.run` call raising inside its bare `try/except: pass`; an
empty output string is falsy under `if git_changes:` and also omits the
section. -/
def snapExtSection (hdr : List Char) (o : Option (List Char)) :
    List (List Char) :=
  match o with
  | some g =>
    if g.isEmpty then []
    else [hdr, str "```\n" ++ g ++ str "```\n\n"]
  | none => []

/-- One `#### Error` entry of the append-log section. -/
def errEntry (context : List Char) (ec : List Char × Nat) : List (List Char) :=
  [str "\n#### Error (occurred " ++ natStr ec.2 ++ str " times):\n",
   str "```\n", extract_error_context context ec.1, str "\n```\n"]
  ++ match find_solution_for_error context ec.1 with
     | some sol => [str "\nResolution:\n```\n", sol, str "\n```\n"]
     | none => [str "\n⚠️ No clear resolution found\n"]

/-- `summarize_session()` from summarize_session.py, with the ambient inputs
made explicit: `context` is the transcript, `now` the formatted timestamp,
and `gitChanges` / `treeOut` the stdout of the two best-effort subprocess
calls (`none` models the call raising, an empty string is falsy and also
omits the section).  Output files are modelled as chunk lists, see
`RunResult` and `frustSectionWrite`. -/
def summarize_session (context now : List Char)
    (gitChanges treeOut : Option (List Char)) : RunResult :=
  let errors := findallErr context
  let frustration := findallFrust context
  let most_common_errors := mostCommon errors
  let solutions := findallSolved context
  let ambiguous :=
    (findallTent context).map (fun m => (str "??", m))
    ++ (findallUncert context).map (fun m => (str "?", m))
  let console :=
    [str "\n=== Session Summary ===\n", str "Session Date: " ++ now ++ str "\n"]
    ++ (if solutions.isEmpty then []
        else str "\nCompleted Changes:" :: solutions.map (fun s => str "✓ " ++ s))
    ++ (if ambiguous.isEmpty then []
        else str "\nIn Progress/Attempted Changes:"
          :: ambiguous.map (fun pa => pa.1 ++ str " " ++ pa.2))
    ++ (if most_common_errors.isEmpty then []
        else str "\nOutstanding Issues:"
          :: (most_common_errors.filter
                (fun ec => find_solution_for_error context ec.1 = none)).map
              (fun ec => str "! " ++ ec.1 ++ str " (occurred " ++ natStr ec.2
                ++ str " times)"))
    ++ [str "\nNext Steps:"]
    ++ (if most_common_errors.isEmpty then [] else [str "1. Address remaining errors"])
    ++ (if ambiguous.isEmpty then [] else [str "2. Follow up on attempted changes"])
    ++ [str "3. Continue with planned development tasks"]
  let issuesSection :=
    if most_common_errors.isEmpty && frustration.isEmpty then ([], false)
    else
      let frustPart := frustSectionWrite (dedupFirst frustration)
      (str "\n### Issues Found\n" :: (most_common_errors.map (errEntry context)).flatten
        ++ (if frustration.isEmpty then []
            else str "\n#### Frustration Points:\n" :: frustPart.1),
       frustPart.2)
  let crashed := issuesSection.2
  let bugfixAppended :=
    (str "\n\n## Session " ++ now ++ str "\n") :: issuesSection.1
    ++ (if crashed then []
        else if solutions.isEmpty && ambiguous.isEmpty then []
        else str "\n### Solutions and Attempts:\n"
          :: solutions.map (fun s => str "- SOLVED: " ++ s ++ str "\n")
          ++ ambiguous.map (fun pa => str "- " ++ pa.1 ++ str " " ++ pa.2 ++ str "\n"))
  let snapshot :=
    if crashed then none
    else some (
      [str "# Last Session Summary\n\n", str "Session Date: " ++ now ++ str "\n\n"]
      ++ snapExtSection (str "## Files Changed\n") gitChanges
      ++ snapExtSection (str "## Project Structure\n") treeOut
      ++ [str "## Session Overview\n"]
      ++ (if solutions.isEmpty then []
          else str "\n### Completed Changes\n"
            :: solutions.map (fun s => str "- " ++ s ++ str "\n"))
      ++ (if ambiguous.isEmpty then []
          else str "\n### In Progress/Attempted Changes\n"
            :: ambiguous.map (fun pa => str "- " ++ pa.1 ++ str " " ++ pa.2 ++ str "\n"))
      ++ (if most_common_errors.isEmpty then []
          else str "\n### Outstanding Issues\n"
            :: (most_common_errors.filter
                  (fun ec => find_solution_for_error context ec.1 = none)).map
                (fun ec => str "- " ++ ec.1 ++ str " (occurred " ++ natStr ec.2
                  ++ str " times)\n"))
      ++ [str "\n## Next Steps\n"]
      ++ (if most_common_errors.isEmpty then [] else [str "1. Address remaining errors\n"])
      ++ (if ambiguous.isEmpty then [] else [str "2. Follow up on attempted changes\n"])
      ++ [str "3. Continue with planned development tasks\n"])
  { console := console
    bugfixAppended := bugfixAppended
    snapshot := snapshot
    crashed := crashed }

/-! Embedding of `get_conversation_context`. -/

/-- The sentinel returned when every source fails. -/
def noContextSentinel : List Char := str "No conversation context found"

/-- The history-file source: `open('.conversation_history').read()` inside a
bare `try/except: pass`; an `error` input models the read raising (file
missing, unreadable), which is swallowed, falling to the sentinel. -/
def gccHist : Except Unit (List Char) → List Char
  | Except.ok h => h
  | Except.error _ => noContextSentinel

/-- The stdin source: `select.select([sys.stdin], [], [], 0.0)` followed by
`sys.stdin.read()`, inside a bare `try/except: pass`.  `Except.ok (some s)`
models the zero-timeout readiness check reporting data and the read
returning `s`; `Except.ok none` models no data available; `Except.error ()`
models an exception anywhere in the probe, which is swallowed.  On failure
the resolver proceeds to the history file. -/
def gccStdin (stdinProbe : Except Unit (Option (List Char)))
    (histRead : Except Unit (List Char)) : List Char :=
  match stdinProbe with
  | Except.ok (some s) => s
  | Except.ok none => gccHist histRead
  | Except.error _ => gccHist histRead

/-- `get_conversation_context()` from summarize_session.py with its ambient
inputs made explicit.  `env` is `os.getenv('CURSOR_CONTEXT')` (`none` when
unset); Python's truthiness test `if cursor_context:` skips both `None` and
the empty string. -/
def get_conversation_context (env : Option (List Char))
    (stdinProbe : Except Unit (Option (List Char)))
    (histRead : Except Unit (List Char)) : List Char :=
  match env with
  | some s => if s.isEmpty then gccStdin stdinProbe histRead else s
  | none => gccStdin stdinProbe histRead

/-! Basic lemmas about the embedding. -/

theorem firstSome_eq_none_iff {α β} {f : α → Option β} {l : List α} :
    firstSome f l = none ↔ ∀ a ∈ l, f a = none := by
  induction l with
  | nil => simp [firstSome]
  | cons a as ih =>
    cases h : f a with
    | some b => simp [firstSome, h]
    | none => simp [firstSome, h, ih]

theorem firstSome_isSome_iff {α β} {f : α → Option β} {l : List α} :
    (firstSome f l).isSome = true ↔ ∃ a ∈ l, (f a).isSome = true := by
  induction l with
  | nil => simp [firstSome]
  | cons a as ih =>
    cases h : f a with
    | some b => simp [firstSome, h]
    | none => simp [firstSome, h, ih]

theorem mem_downRange {a b m : Nat} : m ∈ downRange a b ↔ b < m ∧ m ≤ a := by
  simp only [downRange, List.mem_reverse, List.mem_range'_1]
  omega

theorem splitNl_ne_nil (s : List Char) : splitNl s ≠ [] := by
  cases s with
  | nil => simp [splitNl]
  | cons c rest =>
    simp only [splitNl]
    split
    · simp
    · split <;> simp

theorem not_nl_mem_splitNl {s l : List Char} (hl : l ∈ splitNl s) : '\n' ∉ l := by
  induction s generalizing l with
  | nil =>
    simp only [splitNl, List.mem_singleton] at hl
    subst hl; simp
  | cons c rest ih =>
    by_cases hc : c = '\n'
    · subst hc
      simp [splitNl] at hl
      rcases hl with rfl | hl
      · simp
      · exact ih hl
    · cases hsp : splitNl rest with
      | nil => exact absurd hsp (splitNl_ne_nil rest)
      | cons l0 ls =>
        simp [splitNl, hc, hsp] at hl
        rcases hl with rfl | hl
        · intro hmem
          rcases List.mem_cons.mp hmem with h1 | h2
          · exact hc h1.symm
          · exact ih (hsp ▸ List.mem_cons_self l0 ls) h2
        · exact ih (by rw [hsp]; exact List.mem_cons_of_mem _ hl)

theorem leadSeg_iff {n h : List Char} : leadSeg n h = true ↔ n <+: h := by
  induction n generalizing h with
  | nil => simp [leadSeg]
  | cons a as ih =>
    cases h with
    | nil => simp [leadSeg]
    | cons b bs =>
      simp only [leadSeg, Bool.and_eq_true, beq_iff_eq, ih, List.cons_prefix_cons]

theorem containsSub_iff {n h : List Char} : containsSub n h = true ↔ n <:+: h := by
  induction h with
  | nil => simp [containsSub, leadSeg_iff]
  | cons c rest ih =>
    simp [containsSub, leadSeg_iff, ih, List.infix_cons_iff]

theorem lineAt_mem {context : List Char} {i : Nat} (h : i < numLines context) :
    lineAt context i ∈ splitNl context := by
  unfold lineAt
  rw [List.getD_eq_getElem _ _ h]
  exact List.getElem_mem h

theorem errorIndices_eq_nil {context err : List Char} (hnl : '\n' ∈ err) :
    errorIndices context err = [] := by
  unfold errorIndices
  rw [List.filter_eq_nil_iff]
  intro i hi hcontains
  exact not_nl_mem_splitNl (lineAt_mem (List.mem_range.mp hi))
    ((containsSub_iff.mp hcontains).subset hnl)

/-- C2: every extracted error whose matched text contains a newline (the
error regex extended the match across a newline into the following line) is
contained in no single line of the transcript; `find_solution_for_error`
therefore finds no occurrence index and returns `none`, and
`extract_error_context` falls through its line loop and returns the matched
text itself. -/
theorem C2_newline_error_unresolvable (context err : List Char)
    (_hmem : err ∈ findallErr context) (hnl : '\n' ∈ err) :
    (∀ l ∈ splitNl context, ¬ err <:+: l) ∧
    find_solution_for_error context err 5 = none ∧
    extract_error_context context err 3 = err := by
  refine ⟨?_, ?_, ?_⟩
  · intro l hl hinf
    exact not_nl_mem_splitNl hl (hinf.subset hnl)
  · unfold find_solution_for_error
    rw [errorIndices_eq_nil hnl]
    rfl
  · unfold extract_error_context
    have hfind : (List.range (splitNl context).length).find?
        (fun i => containsSub err (lineAt context i)) = none := by
      rw [List.find?_eq_none]
      intro i hi hc
      exact not_nl_mem_splitNl (lineAt_mem (List.mem_range.mp hi))
        ((containsSub_iff.mp hc).subset hnl)
    rw [hfind]

/-- The transcript used to witness C2. -/
def ctxC2 : List Char := str "error a\nb"

theorem C2_witness :
    (str "error a\nb") ∈ findallErr ctxC2 ∧ '\n' ∈ (str "error a\nb") ∧
    ((∀ l ∈ splitNl ctxC2, ¬ (str "error a\nb") <:+: l) ∧
     find_solution_for_error ctxC2 (str "error a\nb") 5 = none ∧
     extract_error_context ctxC2 (str "error a\nb") 3 = str "error a\nb") :=
  ⟨by decide, by decide,
   C2_newline_error_unresolvable ctxC2 (str "error a\nb") (by decide) (by decide)⟩

/-! C1: the worked example from the specification. -/

/-- The example transcript of the specification. -/
def exampleTranscript : List Char :=
  str "Error: build failed\nok let\x27s try a different approach\n... edit_file foo.py ...\nthat worked now"

/-- The single error-pattern match the example transcript produces. -/
def exampleError : List Char :=
  str "Error: build failed\nok let\x27s try a different approach"

/-- C1, counterexample: on the example transcript the single extracted error
spans the newline into the following line, so `find_solution_for_error`
returns `none` — not, as the claim states, a resolution snippet from the
`edit_file` line through `that worked now`. -/
theorem C1_counterexample :
    findallErr exampleTranscript = [exampleError] ∧
    '\n' ∈ exampleError ∧
    find_solution_for_error exampleTranscript exampleError 5 = none := by
  decide

/-- C1, amended: the example transcript yields exactly one `ErrorOccurrence`
group with count 1, one TENTATIVE-tier phrase and one SOLVED-tier phrase,
but `find_solution_for_error` returns `none` for the extracted error (its
matched text spans two lines, so no occurrence index is ever found), and the
error is reported unresolved. -/
theorem C1_example_analysis :
    mostCommon (findallErr exampleTranscript) = [(exampleError, 1)] ∧
    (findallTent exampleTranscript).length = 1 ∧
    (findallSolved exampleTranscript).length = 1 ∧
    find_solution_for_error exampleTranscript exampleError 5 = none := by
  decide

/-! Characterization of the Error–Resolution Correlator. -/

/-- `find_solution_for_error` succeeds exactly when some occurrence index
`i` has a resolution-phrase line `k` with `i + 1 ≤ k < min len (i + w)`
(note the strict upper bound: the Python `range(error_idx + 1, min(len,
error_idx + window))` stops one line short of `i + w`) and an action line
strictly between `i` and `k`. -/
theorem findSolution_isSome_iff (context err : List Char) (w : Nat) :
    (find_solution_for_error context err w).isSome = true ↔
      ∃ i ∈ errorIndices context err, ∃ k,
        i + 1 ≤ k ∧ k < min (numLines context) (i + w) ∧
        hasResPhrase (lineAt context k) = true ∧
        ∃ j, i < j ∧ j < k ∧ hasAction (lineAt context j) = true := by
  unfold find_solution_for_error
  rw [firstSome_isSome_iff]
  refine exists_congr fun i => and_congr_right fun _ => ?_
  rw [firstSome_isSome_iff]
  constructor
  · rintro ⟨k, hk, hsome⟩
    rw [List.mem_range'_1] at hk
    by_cases hres : hasResPhrase (lineAt context k) = true
    · rw [if_pos hres, firstSome_isSome_iff] at hsome
      obtain ⟨j, hj, hact⟩ := hsome
      rw [mem_downRange] at hj
      by_cases ha : hasAction (lineAt context j) = true
      · exact ⟨k, by omega, by omega, hres, j, by omega, by omega, ha⟩
      · rw [if_neg ha] at hact
        simp at hact
    · rw [if_neg hres] at hsome
      simp at hsome
  · rintro ⟨k, hk1, hk2, hres, j, hj1, hj2, hact⟩
    refine ⟨k, ?_, ?_⟩
    · rw [List.mem_range'_1]
      omega
    · rw [if_pos hres, firstSome_isSome_iff]
      refine ⟨j, mem_downRange.mpr (by omega), ?_⟩
      rw [if_pos hact]
      rfl

/-- C5 (amended): with the default window of 5, the correlator's forward
scan covers only the 4 lines i+1 through i+4 (`range(i + 1, min(len, i + 5))`):
a resolution phrase on any of those lines with a qualifying action line
yields resolved, and an error whose nearest resolution phrase lies 5 or more
lines after every occurrence is reported unresolved. -/
theorem C5_forward_window (context err : List Char) :
    ((∃ i ∈ errorIndices context err, ∃ k,
        i + 1 ≤ k ∧ k ≤ i + 4 ∧ k < numLines context ∧
        hasResPhrase (lineAt context k) = true ∧
        ∃ j, i < j ∧ j < k ∧ hasAction (lineAt context j) = true) →
      (find_solution_for_error context err 5).isSome = true) ∧
    ((∀ i ∈ errorIndices context err, ∀ k, i < k → k < i + 5 →
        hasResPhrase (lineAt context k) = false) →
      find_solution_for_error context err 5 = none) := by
  constructor
  · rintro ⟨i, hi, k, h1, h2, h3, hres, j, hj1, hj2, hact⟩
    exact (findSolution_isSome_iff context err 5).mpr
      ⟨i, hi, k, h1, by omega, hres, j, hj1, hj2, hact⟩
  · intro hnone
    cases hopt : find_solution_for_error context err 5 with
    | none => rfl
    | some v =>
      obtain ⟨i, hi, k, h1, h2, hres, -⟩ :=
        (findSolution_isSome_iff context err 5).mp (by rw [hopt]; rfl)
      have hfalse := hnone i hi k (by omega) (by omega)
      rw [hfalse] at hres
      exact absurd hres (by simp)

/-- The transcript refuting C5 as stated: occurrence at line 0, action line
at line 1, and the nearest resolution phrase at line 5 = i + 5. -/
def ctxC5 : List Char := str "some error here\nedit_file foo\na\nb\nc\nthat worked"

/-- C5, counterexample: the resolution phrase sits exactly 5 lines after the
only occurrence (the claim says lines i+1 .. i+5 are covered) with a
qualifying action line in between, yet the correlator reports unresolved. -/
theorem C5_counterexample :
    errorIndices ctxC5 (str "some error here") = [0] ∧
    hasAction (lineAt ctxC5 1) = true ∧
    hasResPhrase (lineAt ctxC5 5) = true ∧
    hasResPhrase (lineAt ctxC5 1) = false ∧
    hasResPhrase (lineAt ctxC5 2) = false ∧
    hasResPhrase (lineAt ctxC5 3) = false ∧
    hasResPhrase (lineAt ctxC5 4) = false ∧
    find_solution_for_error ctxC5 (str "some error here") 5 = none := by
  decide

/-- The transcript witnessing the positive direction of C5. -/
def ctxW5 : List Char := str "boom error\nedit_file a\nthat worked"

theorem C5_witness :
    (find_solution_for_error ctxW5 (str "boom error") 5).isSome = true ∧
    find_solution_for_error (str "quiet") (str "nope") 5 = none :=
  ⟨(C5_forward_window ctxW5 (str "boom error")).1
     ⟨0, by decide, 2, by decide, by decide, by decide, by decide,
      1, by decide, by decide, by decide⟩,
   (C5_forward_window (str "quiet") (str "nope")).2 (by
     intro i hi k _ _
     rw [show errorIndices (str "quiet") (str "nope") = [] from by decide] at hi
     exact absurd hi (List.not_mem_nil i))⟩

/-- C6 (amended): the forward scan does not stop at the first
resolution-indicating line: even when the first resolution line `k1` of the
window has no action-marker line strictly between the occurrence and `k1`,
a later resolution line `k2` inside the same forward window that is preceded
by an action-marker line does yield a resolution snippet. -/
theorem C6_later_resolution_line_used (context err : List Char) (i k1 k2 j : Nat)
    (hi : i ∈ errorIndices context err)
    (hk1 : i < k1) (hk12 : k1 < k2) (hk2 : k2 < min (numLines context) (i + 5))
    (_hres1 : hasResPhrase (lineAt context k1) = true)
    (_hnoact : ∀ j2, i < j2 → j2 < k1 → hasAction (lineAt context j2) = false)
    (hres2 : hasResPhrase (lineAt context k2) = true)
    (hj : i < j) (hjk : j < k2) (hact : hasAction (lineAt context j) = true) :
    (find_solution_for_error context err 5).isSome = true :=
  (findSolution_isSome_iff context err 5).mpr
    ⟨i, hi, k2, by omega, hk2, hres2, j, hj, hjk, hact⟩

/-- The transcript refuting C6 as stated: the first resolution line
(`solved?`, line 1) has no action line before it, but a later resolution
line (`that worked`, line 3) is preceded by one (`edit_file x`, line 2). -/
def ctxC6 : List Char := str "bad error\nsolved?\nedit_file x\nthat worked"

/-- C6, counterexample: the claim says this occurrence contributes no
resolution snippet, yet the function returns the snippet built from the
later resolution line of the same window. -/
theorem C6_counterexample :
    errorIndices ctxC6 (str "bad error") = [0] ∧
    hasResPhrase (lineAt ctxC6 1) = true ∧
    hasResPhrase (lineAt ctxC6 2) = false ∧
    hasAction (lineAt ctxC6 2) = true ∧
    hasResPhrase (lineAt ctxC6 3) = true ∧
    find_solution_for_error ctxC6 (str "bad error") 5 =
      some (str "edit_file x\nthat worked") := by
  decide

theorem C6_witness :
    (find_solution_for_error ctxC6 (str "bad error") 5).isSome = true :=
  C6_later_resolution_line_used ctxC6 (str "bad error") 0 1 3 2
    (by decide) (by decide) (by decide) (by decide) (by decide)
    (fun j2 h1 h2 => by omega) (by decide) (by decide) (by decide) (by decide)

/-! C7: the correlator's per-line resolution predicate versus the
SOLVED-tier extraction vocabulary. -/

/-- Whether the SOLVED-tier pattern matches somewhere within a line (the
`re.findall` scan of the SOLVED pattern finds a match in it). -/
def solvedPatternIn (l : List Char) : Bool := !(findallSolved l).isEmpty

theorem matchLitCI_isSome_iff {t s : List Char} :
    (matchLitCI t s).isSome = true ↔
      t.map Char.toLower <+: s.map Char.toLower := by
  induction t generalizing s with
  | nil => simp [matchLitCI]
  | cons a as ih =>
    cases s with
    | nil => simp [matchLitCI]
    | cons b bs =>
      simp only [matchLitCI, List.map_cons, List.cons_prefix_cons]
      by_cases h : Char.toLower b = Char.toLower a
      · rw [if_pos (beq_iff_eq.mpr h)]
        simp [Option.isSome_map, ih, h]
      · rw [if_neg (by simpa using h)]
        constructor
        · intro hh
          exact absurd hh (by simp)
        · rintro ⟨hab, -⟩
          exact absurd hab.symm h

theorem matchLitCS_group {t s m r : List Char} (h : matchLitCS t s = some (m, r)) :
    m = t := by
  induction t generalizing s m r with
  | nil =>
    simp only [matchLitCS, Option.some_inj] at h
    exact congrArg Prod.fst h.symm
  | cons a as ih =>
    cases s with
    | nil => exact absurd h (by simp [matchLitCS])
    | cons b bs =>
      by_cases hba : b == a
      · rw [matchLitCS, if_pos hba] at h
        cases hm : matchLitCS as bs with
        | none => rw [hm] at h; exact absurd h (by simp)
        | some p =>
          rw [hm] at h
          obtain ⟨p1, p2⟩ := p
          simp only [Option.map_some', Option.some_inj, Prod.mk.injEq] at h
          rw [← h.1, ih hm, beq_iff_eq.mp hba]
      · rw [matchLitCS, if_neg (by simpa using hba)] at h
        exact absurd h (by simp)

theorem matchTriggerCS_group {trigs : List (List Char)} {s m r : List Char}
    (h : matchTriggerCS trigs s = some (m, r)) : m ∈ trigs := by
  induction trigs with
  | nil => exact absurd h (by simp [matchTriggerCS, firstSome])
  | cons t ts ih =>
    rw [matchTriggerCS, firstSome] at h
    cases hl : matchLitCS t s with
    | some p =>
      rw [hl] at h
      obtain ⟨p1, p2⟩ := p
      simp only [Option.some_inj, Prod.mk.injEq] at h
      exact h.1 ▸ (matchLitCS_group hl ▸ List.mem_cons_self t ts)
    | none =>
      rw [hl] at h
      exact List.mem_cons_of_mem t (ih h)

theorem matchPhraseAt_isSome_iff {trigs : List (List Char)} {s : List Char} :
    (matchPhraseAt trigs s).isSome = true ↔
      (matchTriggerCI trigs s).isSome = true := by
  unfold matchPhraseAt
  cases matchTriggerCI trigs s with
  | none => simp
  | some p => obtain ⟨m, r⟩ := p; simp

theorem matchTriggerCI_isSome_iff {trigs : List (List Char)} {s : List Char} :
    (matchTriggerCI trigs s).isSome = true ↔
      ∃ t ∈ trigs, (matchLitCI t s).isSome = true := by
  unfold matchTriggerCI
  exact firstSome_isSome_iff

/-- A case-insensitive literal matches at some position of `l` exactly when
its lowercasing is an infix of the lowercasing of `l`. -/
theorem exists_matchLitCI_iff {t l : List Char} :
    (∃ n, (matchLitCI t (l.drop n)).isSome = true) ↔
      t.map Char.toLower <:+: l.map Char.toLower := by
  constructor
  · rintro ⟨n, hn⟩
    have hpre := matchLitCI_isSome_iff.mp hn
    rw [List.map_drop] at hpre
    exact List.infix_iff_prefix_suffix.mpr ⟨_, hpre, List.drop_suffix n _⟩
  · intro hinf
    obtain ⟨u, hpre, hsuf⟩ := List.infix_iff_prefix_suffix.mp hinf
    obtain ⟨v, hv⟩ := hsuf
    refine ⟨v.length, matchLitCI_isSome_iff.mpr ?_⟩
    rw [List.map_drop, ← hv, List.drop_left]
    exact hpre

theorem reScan_eq_nil_iff (matcher : List Char → Option (List Char × Nat))
    (hm : matcher [] = none) :
    ∀ (s : List Char) (fuel : Nat), s.length + 1 ≤ fuel →
      (reScan matcher fuel s = [] ↔ ∀ n, matcher (s.drop n) = none) := by
  intro s
  induction s with
  | nil =>
    intro fuel hf
    match fuel, hf with
    | fuel + 1, _ =>
      simp only [reScan, true_iff]
      intro n
      simpa using hm
  | cons c rest ih =>
    intro fuel hf
    match fuel, hf with
    | fuel + 1, hf =>
      have hrest : rest.length + 1 ≤ fuel := by
        simp only [List.length_cons] at hf
        omega
      constructor
      · intro hnil n
        cases hmm : matcher (c :: rest) with
        | some p =>
          exfalso
          obtain ⟨g, k⟩ := p
          by_cases hk : k = 0 <;> simp [reScan, hmm, hk] at hnil
        | none =>
          cases n with
          | zero => exact hmm
          | succ n =>
            have hnil2 : reScan matcher fuel rest = [] := by
              simpa [reScan, hmm] using hnil
            exact ((ih fuel hrest).mp hnil2) n
      · intro hall
        have h0 : matcher (c :: rest) = none := by simpa using hall 0
        simp only [reScan, h0]
        exact (ih fuel hrest).mpr (fun n => by simpa using hall (n + 1))

theorem reScan_mem_matcher {matcher : List Char → Option (List Char × Nat)}
    {fuel : Nat} {s g : List Char} (hg : g ∈ reScan matcher fuel s) :
    ∃ u n, matcher u = some (g, n) := by
  induction fuel generalizing s with
  | zero => simp [reScan] at hg
  | succ fuel ih =>
    cases s with
    | nil => simp [reScan] at hg
    | cons c rest =>
      cases hmm : matcher (c :: rest) with
      | none =>
        rw [reScan, hmm] at hg
        exact ih hg
      | some p =>
        obtain ⟨g2, k⟩ := p
        rw [reScan, hmm] at hg
        by_cases hk : k = 0
        · simp only [hk, if_true, List.mem_cons, reduceIte] at hg
          rcases hg with rfl | hg2
          · exact ⟨c :: rest, k, hmm⟩
          · exact ih hg2
        · simp only [hk, if_false, List.mem_cons, reduceIte] at hg
          rcases hg with rfl | hg2
          · exact ⟨c :: rest, k, hmm⟩
          · exact ih hg2

theorem solvedPatternIn_iff {l : List Char} :
    solvedPatternIn l = true ↔
      ∃ t ∈ solvedTrigs, t.map Char.toLower <:+: l.map Char.toLower := by
  have hfd : findallSolved l =
      reScan (fun u => (matchPhraseAt solvedTrigs u).map (fun m => (m, m.length)))
        (l.length + 1) l := rfl
  have hnil := reScan_eq_nil_iff
    (fun u => (matchPhraseAt solvedTrigs u).map (fun m => (m, m.length)))
    (by decide) l (l.length + 1) (Nat.le_refl _)
  constructor
  · intro hp
    have hne : findallSolved l ≠ [] := by
      intro h0
      rw [solvedPatternIn, h0] at hp
      simp at hp
    have hex : ∃ n,
        ¬ ((matchPhraseAt solvedTrigs (l.drop n)).map (fun m => (m, m.length)) = none) := by
      by_contra hall
      push_neg at hall
      exact hne (hfd ▸ hnil.mpr hall)
    obtain ⟨n, hn⟩ := hex
    have hsome : (matchPhraseAt solvedTrigs (l.drop n)).isSome = true := by
      cases h : matchPhraseAt solvedTrigs (l.drop n) with
      | none => rw [h] at hn; simp at hn
      | some m => rfl
    obtain ⟨t, ht, hlit⟩ :=
      matchTriggerCI_isSome_iff.mp (matchPhraseAt_isSome_iff.mp hsome)
    exact ⟨t, ht, exists_matchLitCI_iff.mp ⟨n, hlit⟩⟩
  · rintro ⟨t, ht, hinf⟩
    obtain ⟨n, hlit⟩ := exists_matchLitCI_iff.mpr hinf
    have hsome : (matchPhraseAt solvedTrigs (l.drop n)).isSome = true :=
      matchPhraseAt_isSome_iff.mpr (matchTriggerCI_isSome_iff.mpr ⟨t, ht, hlit⟩)
    have hne : findallSolved l ≠ [] := by
      intro h0
      have hbase := hnil.mp (hfd ▸ h0) n
      rw [Option.map_eq_none'] at hbase
      rw [hbase] at hsome
      simp at hsome
    rw [solvedPatternIn]
    cases hc : findallSolved l with
    | nil => exact absurd hc hne
    | cons a as => simp

/-- C7: for every line of text, the correlator's per-line resolution test
(case-insensitive containment of one of `that worked`, `fixed`, `solved`,
`resolved`) holds exactly when the SOLVED-tier pattern anchored on
`that worked`, `fixed`, `solved` matches within the line — the extra token
`resolved` accepts no line the SOLVED vocabulary rejects, since it contains
`solved`. -/
theorem C7_resolution_vocab_equiv (line : List Char) :
    hasResPhrase line = true ↔ solvedPatternIn line = true := by
  rw [solvedPatternIn_iff]
  unfold hasResPhrase
  rw [List.any_eq_true]
  constructor
  · rintro ⟨p, hp, hc⟩
    have hinf : p <:+: List.map Char.toLower line := containsSub_iff.mp hc
    simp only [List.mem_cons, List.not_mem_nil, or_false] at hp
    rcases hp with rfl | rfl | rfl | rfl
    · refine ⟨str "that worked", by decide, ?_⟩
      rw [show (str "that worked").map Char.toLower = str "that worked" from by decide]
      exact hinf
    · refine ⟨str "fixed", by decide, ?_⟩
      rw [show (str "fixed").map Char.toLower = str "fixed" from by decide]
      exact hinf
    · refine ⟨str "solved", by decide, ?_⟩
      rw [show (str "solved").map Char.toLower = str "solved" from by decide]
      exact hinf
    · refine ⟨str "solved", by decide, ?_⟩
      rw [show (str "solved").map Char.toLower = str "solved" from by decide]
      exact (containsSub_iff.mp
        (by decide : containsSub (str "solved") (str "resolved") = true)).trans hinf
  · rintro ⟨t, ht, hinf⟩
    simp only [solvedTrigs, List.mem_cons, List.not_mem_nil, or_false] at ht
    rcases ht with rfl | rfl | rfl
    · refine ⟨str "that worked", by simp, containsSub_iff.mpr ?_⟩
      rw [show (str "that worked").map Char.toLower = str "that worked" from by decide] at hinf
      exact hinf
    · refine ⟨str "fixed", by simp, containsSub_iff.mpr ?_⟩
      rw [show (str "fixed").map Char.toLower = str "fixed" from by decide] at hinf
      exact hinf
    · refine ⟨str "solved", by simp, containsSub_iff.mpr ?_⟩
      rw [show (str "solved").map Char.toLower = str "solved" from by decide] at hinf
      exact hinf

/-! C10: the shape of recorded frustration markers. -/

/-- C10, counterexample: on `damn it all` the whole frustration-pattern
match consumes all 11 characters (the trigger plus its trailing context up
to the sentence boundary), but the recorded marker — capture group 1, which
is what `re.findall` collects — is the bare trigger `damn`, not the
extended text. -/
theorem C10_counterexample :
    matchFrustAt (str "damn it all") = some (str "damn", 11) ∧
    findallFrust (str "damn it all") = [str "damn"] := by
  decide

/-- C10 (amended): every recorded frustration marker is the bare matched
trigger token — a run of four or more characters from the class
`[A-Z !]`, or one of the profanity words — without the trailing context,
which the pattern consumes but does not capture. -/
theorem C10_markers_bare (t m : List Char) (hm : m ∈ findallFrust t) :
    (4 ≤ m.length ∧ ∀ c ∈ m, upperClass c = true) ∨ m ∈ profanities := by
  obtain ⟨u, n, hu⟩ := reScan_mem_matcher hm
  unfold matchFrustAt at hu
  by_cases h4 : 4 ≤ (u.takeWhile upperClass).length
  · rw [if_pos h4] at hu
    simp only [Option.some_inj, Prod.mk.injEq] at hu
    left
    rw [← hu.1]
    exact ⟨h4, fun c hc => List.mem_takeWhile_imp hc⟩
  · rw [if_neg h4] at hu
    cases hcs : matchTriggerCS profanities u with
    | none =>
      rw [hcs] at hu
      simp at hu
    | some p =>
      obtain ⟨p1, p2⟩ := p
      rw [hcs] at hu
      simp only [Option.some_inj, Prod.mk.injEq] at hu
      right
      rw [← hu.1]
      exact matchTriggerCS_group hcs

theorem C10_witness :
    (4 ≤ (str "DAMN ").length ∧ ∀ c ∈ str "DAMN ", upperClass c = true) ∨
      (str "DAMN ") ∈ profanities :=
  C10_markers_bare (str "DAMN bug") (str "DAMN ") (by decide)

/-! C8: the Context Source Resolver. -/

/-- C8: the resolver tries its sources in strict priority order and returns
at the first success: the externally supplied value verbatim when non-empty;
otherwise the buffered stdin content when the zero-timeout readiness check
reports data; otherwise the history-file content when readable; otherwise
the sentinel.  Failure of the stdin probe (no data or a swallowed exception)
and of the history read (swallowed exception) simply falls through — the
model is a total function, reflecting that the Python function never
raises. -/
theorem C8_context_source_priority (env : Option (List Char))
    (stdinProbe : Except Unit (Option (List Char)))
    (histRead : Except Unit (List Char)) :
    (∀ s, env = some s → s ≠ [] →
      get_conversation_context env stdinProbe histRead = s) ∧
    ((env = none ∨ env = some []) → ∀ s, stdinProbe = Except.ok (some s) →
      get_conversation_context env stdinProbe histRead = s) ∧
    ((env = none ∨ env = some []) →
      (stdinProbe = Except.ok none ∨ stdinProbe = Except.error ()) →
      ∀ h, histRead = Except.ok h →
      get_conversation_context env stdinProbe histRead = h) ∧
    ((env = none ∨ env = some []) →
      (stdinProbe = Except.ok none ∨ stdinProbe = Except.error ()) →
      histRead = Except.error () →
      get_conversation_context env stdinProbe histRead = noContextSentinel) := by
  refine ⟨?_, ?_, ?_, ?_⟩
  · rintro s rfl hs
    rw [get_conversation_context, if_neg (by simpa using hs)]
  · rintro (rfl | rfl) s rfl <;> simp [get_conversation_context, gccStdin]
  · rintro (rfl | rfl) (rfl | rfl) h rfl <;>
      simp [get_conversation_context, gccStdin, gccHist]
  · rintro (rfl | rfl) (rfl | rfl) rfl <;>
      simp [get_conversation_context, gccStdin, gccHist]

theorem C8_witness :
    get_conversation_context (some (str "ctx")) (Except.ok none)
        (Except.error ()) = str "ctx" ∧
    get_conversation_context none (Except.ok (some (str "piped")))
        (Except.error ()) = str "piped" ∧
    get_conversation_context none (Except.error ())
        (Except.ok (str "hist")) = str "hist" ∧
    get_conversation_context none (Except.error ())
        (Except.error ()) = noContextSentinel :=
  ⟨(C8_context_source_priority _ _ _).1 (str "ctx") rfl (by decide),
   (C8_context_source_priority _ _ _).2.1 (Or.inl rfl) (str "piped") rfl,
   (C8_context_source_priority _ _ _).2.2.1 (Or.inl rfl) (Or.inr rfl)
     (str "hist") rfl,
   (C8_context_source_priority _ _ _).2.2.2 (Or.inl rfl) (Or.inr rfl) rfl⟩

/-! C4 and C3: the frustration-section crash. -/

/-- C4: for every transcript from which at least one frustration marker is
extracted, the run raises an uncaught `AttributeError` while writing the
frustration section of the append-log entry (the loop variable `f` rebinds
the open file handle to a string, and `str` has no `write` method), so the
run terminates before the snapshot file is ever opened: the snapshot
artifact is left completely unchanged. -/
theorem C4_frustration_crash (context now : List Char)
    (gitChanges treeOut : Option (List Char))
    (h : findallFrust context ≠ []) :
    (summarize_session context now gitChanges treeOut).crashed = true ∧
    (summarize_session context now gitChanges treeOut).snapshot = none := by
  obtain ⟨x, xs, hx⟩ : ∃ x xs, findallFrust context = x :: xs := by
    cases hf : findallFrust context with
    | nil => exact absurd hf h
    | cons a as => exact ⟨a, as, rfl⟩
  simp [summarize_session, hx, frustSectionWrite, dedupFirst, dedupFirstAux]

theorem C4_witness :
    (summarize_session (str "shit happened") (str "2025-01-01 00:00")
      none none).crashed = true ∧
    (summarize_session (str "shit happened") (str "2025-01-01 00:00")
      none none).snapshot = none :=
  C4_frustration_crash (str "shit happened") (str "2025-01-01 00:00")
    none none (by decide)

/-- The transcript exhibiting the C3 code bug. -/
def ctxC3 : List Char := str "damn it"

/-- The timestamp used in the C3 run. -/
def nowC3 : List Char := str "2025-01-01 00:00"

/-- C3 (code bug): on a transcript with one frustration marker the run
appends the session header, the `### Issues Found` header and the
`#### Frustration Points:` header, then dies with `AttributeError` before
writing a single `- marker` list line — the dated section never contains
the per-marker lines the claim (and the script's own intent, per its
`Document frustration points` comment) requires, and the snapshot is never
written. -/
theorem C3_marker_lines_never_written :
    findallFrust ctxC3 = [str "damn"] ∧
    (summarize_session ctxC3 nowC3 none none).crashed = true ∧
    (summarize_session ctxC3 nowC3 none none).bugfixAppended =
      [str "\n\n## Session " ++ nowC3 ++ str "\n",
       str "\n### Issues Found\n",
       str "\n#### Frustration Points:\n"] ∧
    (summarize_session ctxC3 nowC3 none none).snapshot = none := by
  decide

/-! C9: absence of the Outstanding Issues sections. -/

theorem findallErr_eq_nil {context : List Char}
    (h : ∀ v ∈ errTriggers, containsSub v (lowerStr context) = false) :
    findallErr context = [] := by
  have hnil := reScan_eq_nil_iff
    (fun u => (matchErrAt u).map (fun m => (m, m.length)))
    (by decide) context (context.length + 1) (Nat.le_refl _)
  refine hnil.mpr ?_
  intro n
  rw [Option.map_eq_none']
  cases htr : matchTriggerCI errTriggers (context.drop n) with
  | none =>
    unfold matchErrAt
    rw [htr]
  | some p =>
    exfalso
    have hs : (matchTriggerCI errTriggers (context.drop n)).isSome = true := by
      rw [htr]; rfl
    obtain ⟨v, hv, hlit⟩ := matchTriggerCI_isSome_iff.mp hs
    have hinf := exists_matchLitCI_iff.mp ⟨n, hlit⟩
    have hall : ∀ w ∈ errTriggers, w.map Char.toLower = w := by decide
    rw [hall v hv] at hinf
    have hc : containsSub v (List.map Char.toLower context) = true :=
      containsSub_iff.mpr hinf
    have hf : containsSub v (List.map Char.toLower context) = false := h v hv
    rw [hc] at hf
    exact absurd hf (by decide)

theorem head_mismatch {a b : Char} {xs ys : List Char} (hab : a ≠ b) :
    a :: xs ≠ b :: ys := by
  intro h
  injection h with h1 _
  exact hab h1

theorem not_mem_section {α : Type} {target header : List Char} {xs : List α}
    {f : α → List Char} {c : Bool}
    (h1 : target ≠ header) (h2 : ∀ x ∈ xs, target ≠ f x) :
    target ∉ (if c = true then ([] : List (List Char)) else header :: xs.map f) := by
  split
  · exact List.not_mem_nil target
  · intro hmem
    rcases List.mem_cons.mp hmem with rfl | hmap
    · exact h1 rfl
    · obtain ⟨x, hx, hfx⟩ := List.mem_map.mp hmap
      exact h2 x hx hfx.symm

theorem not_mem_single {target item : List Char} {c : Bool}
    (h1 : target ≠ item) :
    target ∉ (if c = true then ([] : List (List Char)) else [item]) := by
  split
  · exact List.not_mem_nil target
  · intro hmem
    rcases List.mem_cons.mp hmem with rfl | hmem2
    · exact h1 rfl
    · exact List.not_mem_nil _ hmem2

theorem not_mem_snapExt {target hdr : List Char} {o : Option (List Char)}
    (h1 : target ≠ hdr)
    (h2 : ∀ x, target ≠ str "```\n" ++ x) :
    target ∉ snapExtSection hdr o := by
  cases o with
  | none => exact List.not_mem_nil target
  | some gg =>
    show target ∉
      (if gg.isEmpty then []
       else [hdr, str "```\n" ++ gg ++ str "```\n\n"])
    split
    · exact List.not_mem_nil target
    · intro hmem
      rcases List.mem_cons.mp hmem with rfl | hmem2
      · exact h1 rfl
      · rcases List.mem_cons.mp hmem2 with heq | hmem3
        · rw [List.append_assoc] at heq
          exact h2 _ heq
        · exact List.not_mem_nil _ hmem3

theorem frustSectionWrite_dedup_snd {l : List (List Char)} (h : l ≠ []) :
    (frustSectionWrite (dedupFirst l)).2 = true := by
  cases l with
  | nil => exact absurd rfl h
  | cons x xs => simp [dedupFirst, dedupFirstAux, frustSectionWrite]

/-- C9: whenever the case-insensitive error vocabulary (`error`,
`exception`, `failed`, `failure`) has zero matches in the transcript, the
console output contains no Outstanding Issues section header and the
snapshot written this run (if the run reaches it) contains no Outstanding
Issues section header. -/
theorem C9_no_outstanding_section (context now : List Char)
    (gitChanges treeOut : Option (List Char))
    (h : ∀ v ∈ errTriggers, containsSub v (lowerStr context) = false) :
    str "\nOutstanding Issues:" ∉
      (summarize_session context now gitChanges treeOut).console ∧
    ∀ snap, (summarize_session context now gitChanges treeOut).snapshot = some snap →
      str "\n### Outstanding Issues\n" ∉ snap := by
  have herr : findallErr context = [] := findallErr_eq_nil h
  constructor
  · intro hmem
    simp only [summarize_session, herr, show mostCommon [] = [] from rfl,
      List.isEmpty_nil, if_true, List.mem_append, List.mem_cons, List.not_mem_nil,
      or_false, false_or] at hmem
    rcases hmem with (((((h | h) | h) | h) | h) | h) | h
    · exact absurd h (by decide)
    · rw [show str "Session Date: " = 'S' :: str "ession Date: " from by decide,
        show str "\nOutstanding Issues:" = '\n' :: str "Outstanding Issues:" from by decide,
        List.cons_append, List.cons_append] at h
      exact head_mismatch (by decide) h
    · refine absurd h (not_mem_section (by decide) ?_)
      intro s _
      rw [show str "✓ " = '✓' :: str " " from by decide,
        show str "\nOutstanding Issues:" = '\n' :: str "Outstanding Issues:" from by decide,
        List.cons_append]
      exact head_mismatch (by decide)
    · refine absurd h (not_mem_section (by decide) ?_)
      rintro pa hpa
      rcases List.mem_append.mp hpa with hl | hl
      · obtain ⟨m, -, rfl⟩ := List.mem_map.mp hl
        show str "\nOutstanding Issues:" ≠ str "??" ++ str " " ++ m
        rw [show str "??" = '?' :: str "?" from by decide,
          show str "\nOutstanding Issues:" = '\n' :: str "Outstanding Issues:" from by decide,
          List.cons_append, List.cons_append]
        exact head_mismatch (by decide)
      · obtain ⟨m, -, rfl⟩ := List.mem_map.mp hl
        show str "\nOutstanding Issues:" ≠ str "?" ++ str " " ++ m
        rw [show str "?" = ['?'] from by decide,
          show str "\nOutstanding Issues:" = '\n' :: str "Outstanding Issues:" from by decide,
          List.cons_append, List.cons_append]
        exact head_mismatch (by decide)
    · exact absurd h (by decide)
    · exact absurd h (not_mem_single (by decide))
    · exact absurd h (by decide)
  · intro snap hsnap hmem
    simp only [summarize_session, herr, show mostCommon [] = [] from rfl,
      List.isEmpty_nil, if_true, Bool.true_and] at hsnap
    by_cases hfr : (findallFrust context).isEmpty = true
    case neg =>
      have hfr' : findallFrust context ≠ [] := fun h0 => hfr (by rw [h0]; rfl)
      rw [if_neg hfr] at hsnap
      dsimp only at hsnap
      rw [frustSectionWrite_dedup_snd hfr', if_pos rfl] at hsnap
      exact Option.noConfusion hsnap
    case pos =>
      rw [if_pos hfr] at hsnap
      dsimp only at hsnap
      rw [if_neg Bool.false_ne_true] at hsnap
      injection hsnap with hsnap
      subst hsnap
      simp only [List.mem_append, List.mem_cons, List.not_mem_nil, or_false,
        false_or] at hmem
      rcases hmem with ((((((((h | h) | h) | h) | h) | h) | h) | h) | h) | h
      · exact absurd h (by decide)
      · rw [show str "Session Date: " = 'S' :: str "ession Date: " from by decide,
          show str "\n### Outstanding Issues\n" = '\n' :: str "### Outstanding Issues\n" from by decide,
          List.cons_append, List.cons_append] at h
        exact head_mismatch (by decide) h
      · refine absurd h (not_mem_snapExt (by decide) ?_)
        intro x
        rw [show str "```\n" = '`' :: str "``\n" from by decide,
          show str "\n### Outstanding Issues\n" = '\n' :: str "### Outstanding Issues\n" from by decide,
          List.cons_append]
        exact head_mismatch (by decide)
      · refine absurd h (not_mem_snapExt (by decide) ?_)
        intro x
        rw [show str "```\n" = '`' :: str "``\n" from by decide,
          show str "\n### Outstanding Issues\n" = '\n' :: str "### Outstanding Issues\n" from by decide,
          List.cons_append]
        exact head_mismatch (by decide)
      · exact absurd h (by decide)
      · refine absurd h (not_mem_section (by decide) ?_)
        intro s _
        rw [show str "- " = '-' :: str " " from by decide,
          show str "\n### Outstanding Issues\n" = '\n' :: str "### Outstanding Issues\n" from by decide]
        simp only [List.cons_append]
        exact head_mismatch (by decide)
      · refine absurd h (not_mem_section (by decide) ?_)
        intro pa _
        rw [show str "- " = '-' :: str " " from by decide,
          show str "\n### Outstanding Issues\n" = '\n' :: str "### Outstanding Issues\n" from by decide]
        simp only [List.cons_append]
        exact head_mismatch (by decide)
      · exact absurd h (by decide)
      · exact absurd h (not_mem_single (by decide))
      · exact absurd h (by decide)

theorem C9_witness :
    str "\nOutstanding Issues:" ∉
      (summarize_session (str "all good") (str "2025-01-01 00:00")
        none none).console ∧
    ∀ snap, (summarize_session (str "all good") (str "2025-01-01 00:00")
        none none).snapshot = some snap →
      str "\n### Outstanding Issues\n" ∉ snap :=
  C9_no_outstanding_section (str "all good") (str "2025-01-01 00:00")
    none none (by decide)

end Dwell










